import Mathlib

/-!
Verification of the worksync-app core (attendance parser, week accounting,
deficit distributor, suggestion engine) against its natural-language spec.

Shallow embedding conventions:
* Clock-time strings "HH:MM" are embedded structurally (`TimeStr`): the empty
  string (falsy in JS) or an hours/minutes pair standing for the zero-padded
  rendering produced by `minutesToTime`.
* JS numbers are embedded as exact rationals `ℚ` (integer quantities as `ℕ`/`ℤ`);
  `Math.round` is `round`, `Math.ceil` is `Int.ceil`, `Math.floor` is `Int.floor`,
  and `Number(x.toFixed(4))` is `toFixed4`.
* The date field `dateStr` ("Jan 19") is embedded as a month token plus a
  day-of-month number; the parser compares months case-insensitively, and the
  tokenisation identifies strings exactly when that comparison would.
-/

namespace WorkSync

/-- A clock-time string: the empty string, or the string rendering of an
hours/minutes pair (as produced zero-padded by `minutesToTime`). -/
inductive TimeStr where
  | empty : TimeStr
  | hm (hours minutes : Nat) : TimeStr
deriving DecidableEq

/-- Embeds `timeToMinutes` (src/unnamed/part_002 lines 11-15): empty input
gives 0, otherwise hours * 60 + minutes. -/
def timeToMinutes : TimeStr → Nat
  | .empty => 0
  | .hm h m => h * 60 + m

/-- Embeds `minutesToTime` (src/unnamed/part_002 lines 18-24): round to the
nearest minute, clamp below at 0 and above at 23:59, then format. -/
def minutesToTime (totalMinutes : ℚ) : TimeStr :=
  let mins : ℤ := max 0 (round totalMinutes)
  let mins : ℤ := if 24 * 60 ≤ mins then 23 * 60 + 59 else mins
  .hm (mins.toNat / 60) (mins.toNat % 60)

/-- Embeds `addMinutesToTime` (src/unnamed/part_002 lines 27-31). -/
def addMinutesToTime (timeStr : TimeStr) (minutesToAdd : ℚ) : TimeStr :=
  match timeStr with
  | .empty => .hm 0 0
  | t => minutesToTime ((timeToMinutes t : ℚ) + minutesToAdd)

/-- Embeds `Number(x.toFixed(4))`: rounding to 4 decimal places (the JS
spec rounds ties up, matching `round`). -/
def toFixed4 (x : ℚ) : ℚ := (round (x * 10000) : ℚ) / 10000

/-- Embeds `calculateDuration` (src/unnamed/part_002 lines 52-58). -/
def calculateDuration (start end_ : TimeStr) : ℚ :=
  match start, end_ with
  | .empty, _ => 0
  | _, .empty => 0
  | s, e =>
    let diff : ℤ := (timeToMinutes e : ℤ) - (timeToMinutes s : ℤ)
    if 0 < diff then toFixed4 ((diff : ℚ) / 60) else 0

/-! Constants from src/constants.ts. -/

def DAILY_TARGET_HOURS : ℚ := 9.5
def WEEKLY_TARGET_HOURS : ℚ := 47.5
def HALF_DAY_DEDUCTION : ℚ := 4.75
def FULL_DAY_DEDUCTION : ℚ := 9.5
def SAFETY_BUFFER_MINUTES : ℤ := 2

/-! Data model from src/types.ts. -/

inductive LeaveType where
  | NONE | HALF | FULL
deriving DecidableEq

inductive DayStatus where
  | FUTURE | PRESENT | PAST | LEAVE | WEEKEND
deriving DecidableEq

/-- The `dateStr` field "MMM dd": a token for the (lowercased) three-letter
month abbreviation, and the day-of-month number. -/
structure DateStr where
  month : Nat
  dom : Nat
deriving DecidableEq

structure DayLog where
  id : String
  label : String
  dateStr : DateStr
  isToday : Bool
  punchIn : TimeStr
  punchOut : TimeStr
  grossHours : ℚ
  deficit : ℚ
  note : String
  status : DayStatus
  leaveType : LeaveType
deriving DecidableEq

structure UserSettings where
  standardInTime : TimeStr
  maxOutTime : TimeStr
  enableMaxTime : Bool
  lateBufferMinutes : ℚ
deriving DecidableEq

structure WeekStats where
  totalWorked : ℚ
  requiredTotal : ℚ
  originalTarget : ℚ
  totalLeaveDeduction : ℚ
  remainingWeekly : ℚ
  weeklyDeficit : ℚ
  projectedTotal : ℚ
  isOnTrack : Bool
deriving DecidableEq

inductive SuggStatus where
  | ok | late | impossible | none | suggestion
deriving DecidableEq

structure SuggestionResult where
  time : TimeStr
  status : SuggStatus
  msg : String
deriving DecidableEq

/-- Embeds `getDailyExpectation` (src/unnamed/part_002 lines 60-64). -/
def getDailyExpectation : LeaveType → ℚ
  | .FULL => 0
  | .HALF => HALF_DAY_DEDUCTION
  | .NONE => DAILY_TARGET_HOURS

/-- The leave deduction accumulated per day in `calculateWeekStats`
(src/unnamed/part_002 lines 76-80). -/
def leaveDeduction : LeaveType → ℚ
  | .FULL => FULL_DAY_DEDUCTION
  | .HALF => HALF_DAY_DEDUCTION
  | .NONE => 0

/-- The per-day projection contribution in `calculateWeekStats`
(src/unnamed/part_002 lines 82-93); `if (day.punchOut)` is JS truthiness,
i.e. nonemptiness of the string. -/
def projectionOf (day : DayLog) : ℚ :=
  if day.punchOut ≠ TimeStr.empty then day.grossHours
  else if day.punchIn ≠ TimeStr.empty then
    max day.grossHours (getDailyExpectation day.leaveType)
  else if day.status = DayStatus.FUTURE ∨ day.status = DayStatus.PRESENT then
    getDailyExpectation day.leaveType
  else 0

/-- Embeds `calculateWeekStats` (src/unnamed/part_002 lines 66-120); the JS
`forEach` accumulations become sums over the list. -/
def calculateWeekStats (days : List DayLog) : WeekStats :=
  let totalWorked := (days.map (fun d => d.grossHours)).sum
  let totalLeaveDeduction := (days.map (fun d => leaveDeduction d.leaveType)).sum
  let projectedTotal := (days.map projectionOf).sum
  let requiredTotal := max 0 (WEEKLY_TARGET_HOURS - totalLeaveDeduction)
  let remainingWeekly := max 0 (requiredTotal - totalWorked)
  let settled := days.filter (fun d =>
    d.status == DayStatus.PAST || !(d.punchOut == TimeStr.empty))
  let expectedSoFar := (settled.map (fun d => getDailyExpectation d.leaveType)).sum
  let workedSoFar := (settled.map (fun d => d.grossHours)).sum
  let weeklyDeficit := max 0 (expectedSoFar - workedSoFar)
  { totalWorked := totalWorked
    requiredTotal := requiredTotal
    originalTarget := WEEKLY_TARGET_HOURS
    totalLeaveDeduction := totalLeaveDeduction
    remainingWeekly := remainingWeekly
    weeklyDeficit := weeklyDeficit
    projectedTotal := projectedTotal
    isOnTrack := decide (requiredTotal - 0.1 ≤ projectedTotal) }

/-- Embeds the `isLocked` closure inside `distributeDeficit`
(src/unnamed/part_002 lines 126-131). -/
def isLocked (day : DayLog) : Bool :=
  if day.leaveType == LeaveType.FULL then true
  else if day.status == DayStatus.PAST then true
  else if day.status == DayStatus.PRESENT && !(day.punchOut == TimeStr.empty) then true
  else false

/-- The loop body of `distributeDeficit` (src/unnamed/part_002 lines 151-168)
for one day, given the precomputed per-day share and cap; locked days are the
indices the loop skips. -/
def distributeDay (settings : UserSettings) (hoursPerDay maxOutMinutes : ℚ)
    (day : DayLog) : DayLog :=
  if isLocked day then day
  else
    let startStr :=
      if day.punchIn == TimeStr.empty then settings.standardInTime else day.punchIn
    let startMins := timeToMinutes startStr
    let durationMinutes := hoursPerDay * 60
    let endMins : ℚ := (startMins : ℚ) + durationMinutes
    let cappedEndMins := min endMins maxOutMinutes
    let endStr := minutesToTime cappedEndMins
    { day with punchIn := startStr, punchOut := endStr,
               grossHours := calculateDuration startStr endStr }

/-- Embeds `distributeDeficit` (src/unnamed/part_002 lines 122-171).  The JS
builds `adjustableIndices` and overwrites `newDays[index]` for each adjustable
index; since each index is visited once and the update depends only on that
day and on quantities computed before the loop, this is a guarded map of
`distributeDay` over the days. -/
def distributeDeficit (days : List DayLog) (settings : UserSettings) : List DayLog :=
  let stats := calculateWeekStats days
  let adjustableCount := (days.filter (fun d => !isLocked d)).length
  if adjustableCount = 0 then days
  else
    let lockedHours :=
      days.foldl (fun acc day => if isLocked day then acc + day.grossHours else acc) 0
    let neededTotal := max 0 (stats.requiredTotal - lockedHours)
    let hoursPerDay := neededTotal / (adjustableCount : ℚ)
    let maxOutMinutes : ℚ :=
      if settings.enableMaxTime then (timeToMinutes settings.maxOutTime : ℚ)
      else 24 * 60 - 1
    days.map (distributeDay settings hoursPerDay maxOutMinutes)

/-! Suggestion engine, src/unnamed/part_002 lines 173-233.  The quantities the
function computes internally are split out as named definitions so properties
about them (monotonicity, cap bounds) can be stated directly. -/

/-- JS truncation toward zero of a rational, as used by the `%` operator. -/
def jsTrunc (q : ℚ) : ℤ := if 0 ≤ q then ⌊q⌋ else ⌈q⌉

/-- JS `a % b` (fmod, sign of the dividend). -/
def jsMod (a b : ℚ) : ℚ := a - b * (jsTrunc (a / b) : ℚ)

/-- Embeds `minutesToDuration` (src/unnamed/part_002 lines 43-49). -/
def minutesToDuration (totalMinutes : ℚ) : String :=
  let isNegative := decide (totalMinutes < 0)
  let absMins := |totalMinutes|
  let h := ⌊absMins / 60⌋
  let m := round (jsMod absMins 60)
  (if isNegative then "-" else "") ++ toString h ++ "h " ++ toString m ++ "m"

/-- The buffered target of `calculateOutTimeFromMinutes`
(src/unnamed/part_002 line 181): round the target up to a whole minute and add
the 2-minute safety buffer when the target is positive. -/
def bufferedTargetMinutes (targetMinutes : ℚ) : ℤ :=
  ⌈targetMinutes⌉ + (if 0 < targetMinutes then SAFETY_BUFFER_MINUTES else 0)

/-- The effective cap of the suggestion engine (src/unnamed/part_002
lines 186-188): `maxOutTime` in minutes when `enableMaxTime`, else 23:59.
The same expression is the cap of `distributeDeficit` (lines 147-149). -/
def maxLimitMins (settings : UserSettings) : Nat :=
  if settings.enableMaxTime then timeToMinutes settings.maxOutTime else 24 * 60 - 1

/-- Minutes actually workable today (src/unnamed/part_002 line 202). -/
def maxPossibleMins (punchIn : TimeStr) (settings : UserSettings) : ℤ :=
  max 0 ((maxLimitMins settings : ℤ) - (timeToMinutes punchIn : ℤ))

/-- The deficit in minutes (src/unnamed/part_002 line 205). -/
def deficitMinutes (punchIn : TimeStr) (targetMinutes : ℚ) (settings : UserSettings) : ℤ :=
  bufferedTargetMinutes targetMinutes - maxPossibleMins punchIn settings

/-- `HALF_DAY_DEDUCTION * 60` (src/unnamed/part_002 line 208). -/
def halfDayMinutes : ℚ := HALF_DAY_DEDUCTION * 60

/-- Half-day credits needed (src/unnamed/part_002 line 209). -/
def halfDaysNeeded (punchIn : TimeStr) (targetMinutes : ℚ) (settings : UserSettings) : ℤ :=
  ⌈((deficitMinutes punchIn targetMinutes settings : ℚ) / halfDayMinutes)⌉

/-- Embeds `calculateOutTimeFromMinutes` (src/unnamed/part_002 lines 174-229). -/
def calculateOutTimeFromMinutes (punchIn : TimeStr) (targetMinutes : ℚ)
    (settings : UserSettings) : SuggestionResult :=
  let startMins := timeToMinutes punchIn
  let buffered := bufferedTargetMinutes targetMinutes
  let suggestedOutMins : ℤ := (startMins : ℤ) + buffered
  if suggestedOutMins ≤ (maxLimitMins settings : ℤ) then
    { time := minutesToTime (suggestedOutMins : ℚ), status := .ok, msg := "Target Met" }
  else
    let deficit := deficitMinutes punchIn targetMinutes settings
    let needed := halfDaysNeeded punchIn targetMinutes settings
    if 0 < needed then
      let creditMinutes : ℚ := (needed : ℚ) * halfDayMinutes
      let newTargetMinutes : ℚ := max 0 ((buffered : ℚ) - creditMinutes)
      let newOutMins : ℚ := (startMins : ℚ) + newTargetMinutes
      { time := minutesToTime newOutMins, status := .suggestion,
        msg := "Add " ++ toString needed ++ " Half-Day" ++
               (if 1 < needed then "s" else "") }
    else
      { time := minutesToTime ((maxLimitMins settings : ℚ)), status := .impossible,
        msg := "Cap reached. Deficit: " ++ minutesToDuration (deficit : ℚ) }

/-- Embeds `calculateOutTime` (src/unnamed/part_002 lines 231-233). -/
def calculateOutTime (punchIn : TimeStr) (targetHours : ℚ)
    (settings : UserSettings) : SuggestionResult :=
  calculateOutTimeFromMinutes punchIn (targetHours * 60) settings

/-! Attendance text parser, src/unnamed/part_000.

The lexical layer (JS regular expressions over raw lines) is abstracted: a raw
input line is embedded as the complete set of facts the scanner at
src/unnamed/part_000 lines 24-89 extracts from it.  A line is either blank
after trimming; a date line (the strict weekday/date/month header, line 31)
carrying its extracted day-of-month, month token and whether the inline
Leave/HLDY/W-OFF/Holiday tag matched (line 48); or a content line carrying all
its "Nh Mm" duration matches (line 63), its lateness match and "on time" flag
(lines 75-83), and whether a leave keyword matched (line 86).  Every raw text
maps to such a line list, so universal statements over `ScanLine` lists cover
every parser run. -/

inductive ScanLine where
  | blank : ScanLine
  | date (month : Nat) (dom : Nat) (tag : Bool) : ScanLine
  | content (durations : List (Nat × Nat)) (late : Option (Nat × Nat))
      (onTime : Bool) (leaveKw : Bool) : ScanLine
deriving DecidableEq

inductive ArrivalStatus where
  | UNKNOWN | ON_TIME | LATE
deriving DecidableEq

/-- The per-day accumulator `dayData` entry (src/unnamed/part_000 lines 12-17). -/
structure DayAcc where
  maxMinutes : Nat
  arrivalStatus : ArrivalStatus
  lateMinutes : Nat
  leaveTagFound : Bool
deriving DecidableEq

def initAcc : DayAcc := ⟨0, .UNKNOWN, 0, false⟩

/-- Pointwise update of the `dayData` record at one key. -/
def updAcc (data : String → DayAcc) (id : String) (f : DayAcc → DayAcc) :
    String → DayAcc :=
  fun s => if s = id then f (data s) else data s

/-- The projection of a day the scanner reads: its id and its date string. -/
def projDay (d : DayLog) : String × DateStr := (d.id, d.dateStr)

/-- Maximum-duration accumulation over the duration matches of one line
(src/unnamed/part_000 lines 63-71). -/
def foldDurations (durations : List (Nat × Nat)) (acc : Nat) : Nat :=
  durations.foldl (fun mx p =>
    let totalMins := p.1 * 60 + p.2
    if mx < totalMins then totalMins else mx) acc

/-- One step of the line scan (src/unnamed/part_000 lines 24-89): the state is
the cursor (`currentProcessingDayId`) and the accumulated `dayData`. -/
def processLine (daysProj : List (String × DateStr))
    (st : Option String × (String → DayAcc)) (line : ScanLine) :
    Option String × (String → DayAcc) :=
  let cursor := st.1
  let data := st.2
  match line with
  | .blank => st
  | .date month dom tag =>
    match daysProj.find? (fun d => d.2.month == month && d.2.dom == dom) with
    | some d =>
      (some d.1, if tag then updAcc data d.1 (fun a => { a with leaveTagFound := true })
                 else data)
    | none => (none, data)
  | .content durations late onTime leaveKw =>
    match cursor with
    | none => st
    | some id =>
      let data := updAcc data id (fun a =>
        { a with maxMinutes := foldDurations durations a.maxMinutes })
      let data :=
        match late with
        | some p => updAcc data id (fun a =>
            { a with arrivalStatus := .LATE, lateMinutes := p.1 * 60 + p.2 })
        | none =>
          if onTime then updAcc data id (fun a => { a with arrivalStatus := .ON_TIME })
          else data
      let data :=
        if leaveKw then updAcc data id (fun a => { a with leaveTagFound := true })
        else data
      (cursor, data)

/-- The whole line scan (src/unnamed/part_000 lines 9-89); in the source the
accumulator map is initialised with `initAcc` for every displayed day and only
those keys are ever read, so a total function defaulting to `initAcc` is an
exact model. -/
def scanLines (daysProj : List (String × DateStr)) (lines : List ScanLine) :
    String → DayAcc :=
  (lines.foldl (processLine daysProj) (none, fun _ => initAcc)).2

/-- The punch-in minute computed from the arrival status
(src/unnamed/part_000 lines 99-111; `startMins` stays 0 when unknown). -/
def startMinsOf (settings : UserSettings) (a : DayAcc) : Nat :=
  match a.arrivalStatus with
  | .LATE => timeToMinutes settings.standardInTime + a.lateMinutes
  | .ON_TIME => timeToMinutes settings.standardInTime
  | .UNKNOWN => 0

/-- The post-scan resolution applied to each day
(src/unnamed/part_000 lines 92-159). -/
def applyData (settings : UserSettings) (data : String → DayAcc) (day : DayLog) :
    DayLog :=
  let a := data day.id
  if 0 < a.maxMinutes then
    let startMins := startMinsOf settings a
    if 0 < startMins then
      if day.isToday then
        { day with punchIn := minutesToTime (startMins : ℚ),
                   punchOut := TimeStr.empty,
                   grossHours := toFixed4 ((a.maxMinutes : ℚ) / 60),
                   leaveType := LeaveType.NONE }
      else
        { day with punchIn := minutesToTime (startMins : ℚ),
                   punchOut := minutesToTime ((startMins + a.maxMinutes : ℕ) : ℚ),
                   grossHours := toFixed4 ((a.maxMinutes : ℚ) / 60),
                   leaveType := LeaveType.NONE }
    else
      { day with grossHours := toFixed4 ((a.maxMinutes : ℚ) / 60),
                 leaveType := LeaveType.NONE }
  else if a.leaveTagFound then
    { day with punchIn := TimeStr.empty, punchOut := TimeStr.empty,
               grossHours := 0, leaveType := LeaveType.FULL }
  else day

/-- Embeds `parseKekaText` (src/unnamed/part_000 lines 4-160): scan the lines
against the displayed days, then resolve each day from its accumulator. -/
def parseKekaText (lines : List ScanLine) (currentDays : List DayLog)
    (settings : UserSettings) : List DayLog :=
  let data := scanLines (currentDays.map projDay) lines
  currentDays.map (applyData settings data)

/-! Sample inputs shared by witnesses. -/

def sampleSettings : UserSettings := ⟨.hm 10 30, .hm 20 31, true, 30⟩

def sampleFutureDay : DayLog :=
  { id := "mon", label := "Monday", dateStr := ⟨1, 19⟩, isToday := false,
    punchIn := .empty, punchOut := .empty, grossHours := 0, deficit := 0,
    note := "", status := .FUTURE, leaveType := .NONE }

def samplePastDay : DayLog :=
  { id := "tue", label := "Tuesday", dateStr := ⟨1, 20⟩, isToday := false,
    punchIn := .hm 10 0, punchOut := .hm 19 30, grossHours := 9.5, deficit := 0,
    note := "", status := .PAST, leaveType := .NONE }

/-! Helper lemmas about the time codec. -/

theorem round_mono_q {a b : ℚ} (h : a ≤ b) : round a ≤ round b := by
  rw [round_eq, round_eq]
  exact Int.floor_le_floor (by linarith)

theorem minutesToTime_natCast (n : ℕ) (h : n ≤ 1439) :
    minutesToTime (n : ℚ) = .hm (n / 60) (n % 60) := by
  simp only [minutesToTime, round_natCast]
  have h1 : max (0 : ℤ) (n : ℤ) = n := max_eq_right (Int.natCast_nonneg n)
  rw [h1]
  have h2 : ¬ ((24 * 60 : ℤ) ≤ (n : ℤ)) := by
    push_cast
    omega
  rw [if_neg h2]
  simp

theorem minutesToTime_natCast_ge (n : ℕ) (h : 1440 ≤ n) :
    minutesToTime (n : ℚ) = .hm 23 59 := by
  simp only [minutesToTime, round_natCast]
  have h1 : max (0 : ℤ) (n : ℤ) = n := max_eq_right (Int.natCast_nonneg n)
  rw [h1]
  have h2 : (24 * 60 : ℤ) ≤ (n : ℤ) := by
    push_cast
    omega
  rw [if_pos h2]
  rfl

theorem timeToMinutes_minutesToTime_le (q : ℚ) (c : ℕ) (h : q ≤ c) :
    timeToMinutes (minutesToTime q) ≤ c := by
  simp only [minutesToTime, timeToMinutes]
  have hrc : max 0 (round q) ≤ (c : ℤ) := by
    have h1 : round q ≤ round ((c : ℕ) : ℚ) := round_mono_q h
    rw [round_natCast] at h1
    exact max_le (Int.natCast_nonneg c) h1
  by_cases h14 : (1440 : ℤ) ≤ max 0 (round q)
  · have h2 : (if (24 * 60 : ℤ) ≤ max 0 (round q) then (23 * 60 + 59 : ℤ)
        else max 0 (round q)) = 1439 := by
      rw [if_pos (by omega)]
      norm_num
    rw [h2]
    omega
  · have h2 : (if (24 * 60 : ℤ) ≤ max 0 (round q) then (23 * 60 + 59 : ℤ)
        else max 0 (round q)) = max 0 (round q) := by
      rw [if_neg (by omega)]
    rw [h2]
    omega

theorem timeToMinutes_minutesToTime_natCast (n : ℕ) :
    timeToMinutes (minutesToTime (n : ℚ)) = min n 1439 := by
  by_cases h : n ≤ 1439
  · rw [minutesToTime_natCast n h]
    simp only [timeToMinutes]
    omega
  · rw [minutesToTime_natCast_ge n (by omega)]
    simp only [timeToMinutes]
    omega

theorem minutesToTime_exists_hm (q : ℚ) : ∃ a b, minutesToTime q = .hm a b :=
  ⟨_, _, rfl⟩

theorem minutesToTime_add_natCast (s m : ℕ) (hm : 0 < m) :
    minutesToTime (((s + m : ℕ) : ℚ)) =
      addMinutesToTime (minutesToTime (s : ℚ)) (m : ℚ) := by
  by_cases hs : s ≤ 1439
  · rw [minutesToTime_natCast s hs]
    show _ = minutesToTime ((timeToMinutes (.hm (s / 60) (s % 60)) : ℚ) + (m : ℚ))
    have h1 : timeToMinutes (.hm (s / 60) (s % 60)) = s := by
      simp only [timeToMinutes]
      omega
    rw [h1]
    push_cast
    ring_nf
  · rw [minutesToTime_natCast_ge s (by omega)]
    show _ = minutesToTime ((timeToMinutes (.hm 23 59) : ℚ) + (m : ℚ))
    have h1 : timeToMinutes (.hm 23 59) = 1439 := rfl
    rw [h1]
    have h2 : ((1439 : ℕ) : ℚ) + (m : ℚ) = (((1439 + m : ℕ) : ℚ)) := by
      push_cast
      ring
    rw [h2, minutesToTime_natCast_ge (1439 + m) (by omega),
        minutesToTime_natCast_ge (s + m) (by omega)]

theorem toFixed4_nonneg {x : ℚ} (hx : 0 ≤ x) : 0 ≤ toFixed4 x := by
  unfold toFixed4
  have h1 : (0 : ℤ) ≤ round (x * 10000) := by
    have := round_mono_q (show (0 : ℚ) ≤ x * 10000 by positivity)
    rwa [round_zero] at this
  exact div_nonneg (by exact_mod_cast h1) (by norm_num)

theorem calculateDuration_nonneg (a b : TimeStr) : 0 ≤ calculateDuration a b := by
  rcases a with _ | ⟨h1, m1⟩ <;> rcases b with _ | ⟨h2, m2⟩ <;>
    simp only [calculateDuration] <;> try exact le_refl 0
  split
  · next hd =>
      refine toFixed4_nonneg (div_nonneg ?_ (by norm_num))
      exact_mod_cast hd.le
  · exact le_refl 0

theorem distributeDeficit_length (days : List DayLog) (settings : UserSettings) :
    (distributeDeficit days settings).length = days.length := by
  unfold distributeDeficit
  by_cases h : (days.filter (fun d => !isLocked d)).length = 0
  · simp [h]
  · simp [h]

theorem parseKekaText_length (lines : List ScanLine) (days : List DayLog)
    (settings : UserSettings) :
    (parseKekaText lines days settings).length = days.length := by
  unfold parseKekaText
  simp

/-- C4: for every valid "HH:MM" clock string (zero-padded hours 00-23,
minutes 00-59), composing `timeToMinutes` then `minutesToTime` returns the
same string, and for every string denoting a time at or past "24:00" the
composition yields "23:59". -/
theorem timeCodec_roundtrip :
    (∀ h m : ℕ, h < 24 → m < 60 →
        minutesToTime ((timeToMinutes (.hm h m) : ℚ)) = .hm h m)
    ∧ (∀ h m : ℕ, 1440 ≤ h * 60 + m →
        minutesToTime ((timeToMinutes (.hm h m) : ℚ)) = .hm 23 59) := by
  constructor
  · intro h m hh hm
    have h1 : timeToMinutes (.hm h m) = h * 60 + m := rfl
    rw [h1, minutesToTime_natCast (h * 60 + m) (by omega)]
    rw [show (h * 60 + m) / 60 = h by omega, show (h * 60 + m) % 60 = m by omega]
  · intro h m hge
    have h1 : timeToMinutes (.hm h m) = h * 60 + m := rfl
    rw [h1, minutesToTime_natCast_ge _ hge]

/-- Witness for C4 at "09:05" and "25:00". -/
theorem timeCodec_roundtrip_witness :
    minutesToTime ((timeToMinutes (.hm 9 5) : ℚ)) = .hm 9 5 ∧
    minutesToTime ((timeToMinutes (.hm 25 0) : ℚ)) = .hm 23 59 :=
  ⟨timeCodec_roundtrip.1 9 5 (by norm_num) (by norm_num),
   timeCodec_roundtrip.2 25 0 (by norm_num)⟩

/-- C5: `calculateDuration` is never negative; it is 0 whenever either
endpoint is empty or the end is not strictly later than the start; and when
both endpoints are nonempty with the end later, it is the difference in
minutes divided by 60 at 4-decimal precision. -/
theorem calculateDuration_spec (a b : TimeStr) :
    0 ≤ calculateDuration a b
    ∧ (a = .empty ∨ b = .empty ∨ timeToMinutes b ≤ timeToMinutes a →
        calculateDuration a b = 0)
    ∧ (a ≠ .empty → b ≠ .empty → timeToMinutes a < timeToMinutes b →
        calculateDuration a b =
          toFixed4 (((timeToMinutes b : ℚ) - (timeToMinutes a : ℚ)) / 60)) := by
  refine ⟨calculateDuration_nonneg a b, ?_, ?_⟩
  · rintro (ha | hb | hle)
    · rw [ha]
      cases b <;> rfl
    · rw [hb]
      cases a <;> rfl
    · rcases a with _ | ⟨h1, m1⟩
      · cases b <;> rfl
      rcases b with _ | ⟨h2, m2⟩
      · rfl
      simp only [calculateDuration]
      rw [if_neg (by omega)]
  · intro ha hb hlt
    rcases a with _ | ⟨h1, m1⟩
    · exact absurd rfl ha
    rcases b with _ | ⟨h2, m2⟩
    · exact absurd rfl hb
    simp only [calculateDuration]
    rw [if_pos (by omega)]
    congr 1
    push_cast
    ring

/-- Witness for C5 at start "10:30", end "18:48". -/
theorem calculateDuration_spec_witness :
    calculateDuration (.hm 10 30) (.hm 18 48) =
      toFixed4 (((timeToMinutes (TimeStr.hm 18 48) : ℚ) -
        (timeToMinutes (TimeStr.hm 10 30) : ℚ)) / 60) :=
  (calculateDuration_spec (.hm 10 30) (.hm 18 48)).2.2
    (by simp) (by simp) (by norm_num [timeToMinutes])

/-- C2: the buffered target of `calculateOutTimeFromMinutes` is
ceil(targetMinutes) plus the 2-minute safety buffer when the target is
positive (ceil alone otherwise), and whenever punch-in in minutes plus the
buffered target is at most the effective cap the result has status ok with
time equal to punch-in plus the buffered target. -/
theorem calculateOutTimeFromMinutes_ok_spec (punchIn : TimeStr)
    (targetMinutes : ℚ) (settings : UserSettings) :
    (0 < targetMinutes →
        bufferedTargetMinutes targetMinutes = ⌈targetMinutes⌉ + 2)
    ∧ (targetMinutes ≤ 0 →
        bufferedTargetMinutes targetMinutes = ⌈targetMinutes⌉)
    ∧ ((timeToMinutes punchIn : ℤ) + bufferedTargetMinutes targetMinutes ≤
          (maxLimitMins settings : ℤ) →
        calculateOutTimeFromMinutes punchIn targetMinutes settings =
          { time := minutesToTime
              ((((timeToMinutes punchIn : ℤ) +
                bufferedTargetMinutes targetMinutes : ℤ) : ℚ)),
            status := .ok, msg := "Target Met" }) := by
  refine ⟨fun ht => ?_, fun ht => ?_, fun hle => ?_⟩
  · unfold bufferedTargetMinutes SAFETY_BUFFER_MINUTES
    rw [if_pos ht]
  · unfold bufferedTargetMinutes
    rw [if_neg (by linarith)]
    ring
  · unfold calculateOutTimeFromMinutes
    rw [if_pos hle]

/-- Witness for C2 at punch-in "10:30", target 570 minutes, default settings. -/
theorem calculateOutTimeFromMinutes_ok_spec_witness :
    (0 : ℚ) < 570
    ∧ bufferedTargetMinutes 570 = ⌈(570 : ℚ)⌉ + 2
    ∧ (timeToMinutes (TimeStr.hm 10 30) : ℤ) + bufferedTargetMinutes 570 ≤
        (maxLimitMins sampleSettings : ℤ)
    ∧ calculateOutTimeFromMinutes (.hm 10 30) 570 sampleSettings =
        { time := minutesToTime
            ((((timeToMinutes (TimeStr.hm 10 30) : ℤ) +
              bufferedTargetMinutes 570 : ℤ) : ℚ)),
          status := .ok, msg := "Target Met" } :=
  ⟨by norm_num,
   (calculateOutTimeFromMinutes_ok_spec (.hm 10 30) 570 sampleSettings).1
     (by norm_num),
   by decide,
   (calculateOutTimeFromMinutes_ok_spec (.hm 10 30) 570 sampleSettings).2.2
     (by decide)⟩

/-- C9: `calculateOutTimeFromMinutes` is monotone in its target: a larger
target never produces a smaller deficit or half-day credit count. -/
theorem calculateOutTimeFromMinutes_monotone (punchIn : TimeStr)
    (settings : UserSettings) (t1 t2 : ℚ) (h : t1 ≤ t2) :
    deficitMinutes punchIn t1 settings ≤ deficitMinutes punchIn t2 settings
    ∧ halfDaysNeeded punchIn t1 settings ≤ halfDaysNeeded punchIn t2 settings := by
  have hb : bufferedTargetMinutes t1 ≤ bufferedTargetMinutes t2 := by
    unfold bufferedTargetMinutes
    have hc : ⌈t1⌉ ≤ ⌈t2⌉ := Int.ceil_mono h
    have hi : (if 0 < t1 then SAFETY_BUFFER_MINUTES else 0) ≤
        (if 0 < t2 then SAFETY_BUFFER_MINUTES else 0) := by
      unfold SAFETY_BUFFER_MINUTES
      split_ifs with h1 h2 h2
      · exact le_refl _
      · exact absurd (lt_of_lt_of_le h1 h) h2
      · norm_num
      · exact le_refl _
    exact add_le_add hc hi
  have hd : deficitMinutes punchIn t1 settings ≤ deficitMinutes punchIn t2 settings := by
    unfold deficitMinutes
    exact sub_le_sub_right hb _
  refine ⟨hd, Int.ceil_mono ?_⟩
  have hdm : (0 : ℚ) < halfDayMinutes := by
    norm_num [halfDayMinutes, HALF_DAY_DEDUCTION]
  rw [div_le_div_iff_of_pos_right hdm]
  exact_mod_cast hd

/-- Witness for C9 at punch-in "18:00", targets 570 and 600 minutes. -/
theorem calculateOutTimeFromMinutes_monotone_witness :
    (570 : ℚ) ≤ 600
    ∧ (deficitMinutes (.hm 18 0) 570 sampleSettings ≤
          deficitMinutes (.hm 18 0) 600 sampleSettings
        ∧ halfDaysNeeded (.hm 18 0) 570 sampleSettings ≤
          halfDaysNeeded (.hm 18 0) 600 sampleSettings) :=
  ⟨by norm_num,
   calculateOutTimeFromMinutes_monotone (.hm 18 0) sampleSettings 570 600
     (by norm_num)⟩

/-- C10: when the punch-in is within the effective cap and the target is
non-negative, the time returned by `calculateOutTimeFromMinutes` is within
the effective cap in every outcome, the half-day suggestion fallback
included. -/
theorem calculateOutTimeFromMinutes_time_le_cap (punchIn : TimeStr)
    (targetMinutes : ℚ) (settings : UserSettings) (ht : 0 ≤ targetMinutes)
    (hin : timeToMinutes punchIn ≤ maxLimitMins settings) :
    timeToMinutes
        (calculateOutTimeFromMinutes punchIn targetMinutes settings).time ≤
      maxLimitMins settings := by
  have hinQ : ((timeToMinutes punchIn : ℚ)) ≤ ((maxLimitMins settings : ℚ)) := by
    exact_mod_cast hin
  unfold calculateOutTimeFromMinutes
  by_cases hok : (timeToMinutes punchIn : ℤ) + bufferedTargetMinutes targetMinutes ≤
      (maxLimitMins settings : ℤ)
  · rw [if_pos hok]
    apply timeToMinutes_minutesToTime_le
    push_cast
    exact_mod_cast hok
  · rw [if_neg hok]
    by_cases hneed : 0 < halfDaysNeeded punchIn targetMinutes settings
    · rw [if_pos hneed]
      apply timeToMinutes_minutesToTime_le
      have hdm : (0 : ℚ) < halfDayMinutes := by
        norm_num [halfDayMinutes, HALF_DAY_DEDUCTION]
      have hmp : maxPossibleMins punchIn settings =
          (maxLimitMins settings : ℤ) - (timeToMinutes punchIn : ℤ) := by
        unfold maxPossibleMins
        rw [max_eq_right (by omega)]
      have hceil : ((deficitMinutes punchIn targetMinutes settings : ℚ) /
          halfDayMinutes) ≤ (halfDaysNeeded punchIn targetMinutes settings : ℚ) :=
        Int.le_ceil _
      have hcred : (deficitMinutes punchIn targetMinutes settings : ℚ) ≤
          (halfDaysNeeded punchIn targetMinutes settings : ℚ) * halfDayMinutes := by
        rw [div_le_iff₀ hdm] at hceil
        exact hceil
      have hDQ : (deficitMinutes punchIn targetMinutes settings : ℚ) =
          (bufferedTargetMinutes targetMinutes : ℚ) -
            ((maxLimitMins settings : ℚ) - (timeToMinutes punchIn : ℚ)) := by
        unfold deficitMinutes
        rw [hmp]
        push_cast
        ring
      have hmax : max (0 : ℚ)
          ((bufferedTargetMinutes targetMinutes : ℚ) -
            (halfDaysNeeded punchIn targetMinutes settings : ℚ) * halfDayMinutes) ≤
          (maxLimitMins settings : ℚ) - (timeToMinutes punchIn : ℚ) :=
        max_le (by linarith) (by linarith)
      linarith [hmax]
    · rw [if_neg hneed]
      apply timeToMinutes_minutesToTime_le
      exact le_refl _

/-! Lemmas for the deficit distributor. -/

theorem distributeDay_locked (settings : UserSettings) (hpd mom : ℚ)
    (day : DayLog) (h : isLocked day = true) :
    distributeDay settings hpd mom day = day := by
  unfold distributeDay
  rw [if_pos h]

theorem distributeDay_cap (settings : UserSettings) (hpd : ℚ) (c : ℕ)
    (day : DayLog) (h : isLocked day = false) :
    timeToMinutes (distributeDay settings hpd ((c : ℕ) : ℚ) day).punchOut ≤ c := by
  unfold distributeDay
  rw [if_neg (by rw [h]; exact Bool.false_ne_true)]
  apply timeToMinutes_minutesToTime_le
  exact min_le_right _ _

/-- The cap expression inside `distributeDeficit` equals `maxLimitMins`. -/
theorem distributeDeficit_cap_eq (settings : UserSettings) :
    (if settings.enableMaxTime then ((timeToMinutes settings.maxOutTime : ℕ) : ℚ)
     else (24 * 60 - 1 : ℚ)) = ((maxLimitMins settings : ℕ) : ℚ) := by
  unfold maxLimitMins
  split <;> norm_num

/-- Positional form of `distributeDeficit`: the output at index `i` is the
input day when no day is adjustable, else `distributeDay` of the input day. -/
theorem distributeDeficit_get (days : List DayLog) (settings : UserSettings)
    (i : ℕ) (hi : i < days.length)
    (hi2 : i < (distributeDeficit days settings).length) :
    (distributeDeficit days settings).get ⟨i, hi2⟩ =
      (if (days.filter (fun d => !isLocked d)).length = 0 then days.get ⟨i, hi⟩
       else
        distributeDay settings
          ((max 0 ((calculateWeekStats days).requiredTotal -
            days.foldl
              (fun acc day => if isLocked day then acc + day.grossHours else acc) 0)) /
            (((days.filter (fun d => !isLocked d)).length : ℕ) : ℚ))
          (if settings.enableMaxTime then ((timeToMinutes settings.maxOutTime : ℕ) : ℚ)
           else (24 * 60 - 1 : ℚ))
          (days.get ⟨i, hi⟩)) := by
  by_cases hz : (days.filter (fun d => !isLocked d)).length = 0
  · rw [if_pos hz]
    have hdd : distributeDeficit days settings = days := by
      unfold distributeDeficit
      rw [if_pos hz]
    revert hi2
    rw [hdd]
    intro hi2
    rfl
  · rw [if_neg hz]
    have hdd : distributeDeficit days settings =
        days.map (distributeDay settings
          ((max 0 ((calculateWeekStats days).requiredTotal -
            days.foldl
              (fun acc day => if isLocked day then acc + day.grossHours else acc) 0)) /
            (((days.filter (fun d => !isLocked d)).length : ℕ) : ℚ))
          (if settings.enableMaxTime then ((timeToMinutes settings.maxOutTime : ℕ) : ℚ)
           else (24 * 60 - 1 : ℚ))) := by
      unfold distributeDeficit
      rw [if_neg hz]
    revert hi2
    rw [hdd]
    intro hi2
    simp only [List.get_eq_getElem, List.getElem_map]

/-- C1: `distributeDeficit` never produces a punch-out later than the
effective cap (`settings.maxOutTime` when `enableMaxTime` is true, else
23:59) on the days it writes; every locked day (leaveType Full, or status
Past, or status Present with punch-out set) appears in the output identical
to its input in all fields. -/
theorem distributeDeficit_cap_and_frame (days : List DayLog)
    (settings : UserSettings) (i : ℕ) (hi : i < days.length)
    (hi2 : i < (distributeDeficit days settings).length) :
    (isLocked (days.get ⟨i, hi⟩) = true →
        (distributeDeficit days settings).get ⟨i, hi2⟩ = days.get ⟨i, hi⟩)
    ∧ (isLocked (days.get ⟨i, hi⟩) = false →
        timeToMinutes
            ((distributeDeficit days settings).get ⟨i, hi2⟩).punchOut ≤
          maxLimitMins settings) := by
  rw [distributeDeficit_get days settings i hi hi2]
  by_cases hz : (days.filter (fun d => !isLocked d)).length = 0
  · rw [if_pos hz]
    constructor
    · intro _
      rfl
    · intro hunlock
      exfalso
      have hnil : days.filter (fun d => !isLocked d) = [] :=
        List.length_eq_zero.mp hz
      have hmem : days.get ⟨i, hi⟩ ∈ days := days.get_mem _ _
      have := List.filter_eq_nil_iff.mp hnil _ hmem
      rw [hunlock] at this
      simp at this
  · rw [if_neg hz]
    constructor
    · intro hlock
      exact distributeDay_locked _ _ _ _ hlock
    · intro hunlock
      rw [distributeDeficit_cap_eq settings]
      exact distributeDay_cap _ _ _ _ hunlock

/-- Witness for C1 on a two-day week: a Past (locked) day is returned
unchanged, and a Future (adjustable) day gets a punch-out within the cap. -/
theorem distributeDeficit_cap_and_frame_witness :
    (isLocked ([samplePastDay, sampleFutureDay].get ⟨0, by norm_num⟩) = true ∧
      (distributeDeficit [samplePastDay, sampleFutureDay] sampleSettings).get
          ⟨0, by rw [distributeDeficit_length]; norm_num⟩ =
        [samplePastDay, sampleFutureDay].get ⟨0, by norm_num⟩)
    ∧ (isLocked ([samplePastDay, sampleFutureDay].get ⟨1, by norm_num⟩) = false ∧
      timeToMinutes
          ((distributeDeficit [samplePastDay, sampleFutureDay] sampleSettings).get
            ⟨1, by rw [distributeDeficit_length]; norm_num⟩).punchOut ≤
        maxLimitMins sampleSettings) :=
  ⟨⟨by decide,
    (distributeDeficit_cap_and_frame [samplePastDay, sampleFutureDay]
      sampleSettings 0 (by norm_num)
      (by rw [distributeDeficit_length]; norm_num)).1 (by decide)⟩,
   ⟨by decide,
    (distributeDeficit_cap_and_frame [samplePastDay, sampleFutureDay]
      sampleSettings 1 (by norm_num)
      (by rw [distributeDeficit_length]; norm_num)).2 (by decide)⟩⟩

/-! The day-record invariant (spec section 3) and its preservation. -/

/-- The day-record invariant of spec section 3: gross hours are non-negative;
a Full-leave day has empty punches and zero gross hours; gross hours agree
with `calculateDuration` whenever both punches are present. -/
def dayInvariant (d : DayLog) : Prop :=
  0 ≤ d.grossHours
  ∧ (d.leaveType = LeaveType.FULL →
      d.punchIn = TimeStr.empty ∧ d.punchOut = TimeStr.empty ∧ d.grossHours = 0)
  ∧ (d.punchIn ≠ TimeStr.empty → d.punchOut ≠ TimeStr.empty →
      d.grossHours = calculateDuration d.punchIn d.punchOut)

instance (d : DayLog) : Decidable (dayInvariant d) := by
  unfold dayInvariant
  infer_instance

/-- The part of the invariant without the punches/gross-hours consistency
clause. -/
def dayWeakInvariant (d : DayLog) : Prop :=
  0 ≤ d.grossHours
  ∧ (d.leaveType = LeaveType.FULL →
      d.punchIn = TimeStr.empty ∧ d.punchOut = TimeStr.empty ∧ d.grossHours = 0)

instance (d : DayLog) : Decidable (dayWeakInvariant d) := by
  unfold dayWeakInvariant
  infer_instance

/-- Evaluation of `toFixed4` at whole numbers: they are already exact at
4 decimals. -/
theorem toFixed4_natCast (n : ℕ) : toFixed4 ((n : ℚ)) = (n : ℚ) := by
  unfold toFixed4
  have h : (n : ℚ) * 10000 = (((n * 10000 : ℕ) : ℚ)) := by
    push_cast
    ring
  rw [h, round_natCast]
  push_cast
  field_simp

/-- Evaluation of `calculateDuration` on two nonempty times in order. -/
theorem calculateDuration_eval (a1 b1 a2 b2 : ℕ)
    (hlt : a1 * 60 + b1 < a2 * 60 + b2) :
    calculateDuration (.hm a1 b1) (.hm a2 b2) =
      toFixed4 ((((a2 * 60 + b2) - (a1 * 60 + b1) : ℕ) : ℚ) / 60) := by
  simp only [calculateDuration, timeToMinutes]
  rw [if_pos (by omega)]
  have h : ((a2 * 60 + b2 : ℕ) : ℤ) - ((a1 * 60 + b1 : ℕ) : ℤ) =
      (((a2 * 60 + b2) - (a1 * 60 + b1) : ℕ) : ℤ) := by omega
  rw [h]
  norm_num

theorem getD_zero_mem {α : Type} (l : List α) (d : α) (h : 0 < l.length) :
    l.getD 0 d ∈ l := by
  cases l with
  | nil => simp at h
  | cons a t => simp [List.getD]

/-- A Past day holding consistent punches 10:00-18:00 and gross hours 8. -/
def ceDay : DayLog :=
  { id := "mon", label := "Monday", dateStr := ⟨1, 19⟩, isToday := false,
    punchIn := .hm 10 0, punchOut := .hm 18 0, grossHours := 8, deficit := 0,
    note := "", status := .PAST, leaveType := .NONE }

/-- Imported text for that day carrying a 5h duration and no arrival status. -/
def ceLines : List ScanLine :=
  [.date 1 19 false, .content [(5, 0)] none false false]

/-- What the parser returns for `ceDay` on `ceLines`: the punches are kept,
the gross hours are overwritten from the parsed 5h duration. -/
def ceOutDay : DayLog :=
  { id := "mon", label := "Monday", dateStr := ⟨1, 19⟩, isToday := false,
    punchIn := .hm 10 0, punchOut := .hm 18 0,
    grossHours := toFixed4 (((300 : ℕ) : ℚ) / 60), deficit := 0,
    note := "", status := .PAST, leaveType := .NONE }

theorem ceDuration_eval : calculateDuration (.hm 10 0) (.hm 18 0) = 8 := by
  rw [calculateDuration_eval 10 0 18 0 (by norm_num)]
  have h : ((((18 * 60 + 0) - (10 * 60 + 0) : ℕ)) : ℚ) / 60 = ((8 : ℕ) : ℚ) := by
    norm_num
  rw [h, toFixed4_natCast]
  norm_num

/-- Counterexample to C3 as stated: the input day satisfies the invariant,
but the parser overwrites its gross hours from the parsed duration (5h) while
leaving its existing punches 10:00-18:00 in place, so the output violates the
consistency clause. -/
theorem parse_invariant_counterexample :
    dayInvariant ceDay
    ∧ ¬ dayInvariant ((parseKekaText ceLines [ceDay] sampleSettings).getD 0 ceDay) := by
  have hout : parseKekaText ceLines [ceDay] sampleSettings = [ceOutDay] := rfl
  constructor
  · refine ⟨by norm_num [ceDay], fun hfull => absurd hfull (by decide), fun _ _ => ?_⟩
    show (8 : ℚ) = calculateDuration (.hm 10 0) (.hm 18 0)
    rw [ceDuration_eval]
  · intro hinv
    have hinv2 : dayInvariant ceOutDay := by
      rw [hout] at hinv
      exact hinv
    have hcons : toFixed4 (((300 : ℕ) : ℚ) / 60) =
        calculateDuration (.hm 10 0) (.hm 18 0) :=
      hinv2.2.2 (by decide) (by decide)
    rw [ceDuration_eval] at hcons
    have h5 : (((300 : ℕ) : ℚ) / 60) = ((5 : ℕ) : ℚ) := by norm_num
    rw [h5, toFixed4_natCast] at hcons
    norm_num at hcons

theorem isLocked_false_not_full {day : DayLog} (h : isLocked day = false) :
    day.leaveType ≠ LeaveType.FULL := by
  intro hfull
  unfold isLocked at h
  rw [hfull] at h
  simp at h

theorem distributeDay_invariant (settings : UserSettings) (hpd mom : ℚ)
    (day : DayLog) (h : dayInvariant day) :
    dayInvariant (distributeDay settings hpd mom day) := by
  by_cases hl : isLocked day
  · rw [distributeDay_locked _ _ _ _ hl]
    exact h
  · have hfalse : isLocked day = false := by
      simp only [Bool.not_eq_true] at hl
      exact hl
    unfold distributeDay
    rw [if_neg hl]
    refine ⟨calculateDuration_nonneg _ _, ?_, ?_⟩
    · intro hfull
      exact absurd (show day.leaveType = LeaveType.FULL from hfull)
        (isLocked_false_not_full hfalse)
    · intro _ _
      rfl

theorem applyData_weakInvariant (settings : UserSettings)
    (data : String → DayAcc) (day : DayLog) (h : dayWeakInvariant day) :
    dayWeakInvariant (applyData settings data day) := by
  simp only [applyData]
  by_cases h1 : 0 < (data day.id).maxMinutes
  · rw [if_pos h1]
    by_cases h2 : 0 < startMinsOf settings (data day.id)
    · rw [if_pos h2]
      by_cases h3 : day.isToday
      · rw [if_pos h3]
        exact ⟨toFixed4_nonneg (by positivity), fun hfull => by simp at hfull⟩
      · rw [if_neg h3]
        exact ⟨toFixed4_nonneg (by positivity), fun hfull => by simp at hfull⟩
    · rw [if_neg h2]
      exact ⟨toFixed4_nonneg (by positivity), fun hfull => by simp at hfull⟩
  · rw [if_neg h1]
    by_cases h4 : (data day.id).leaveTagFound
    · rw [if_pos h4]
      exact ⟨le_refl 0, fun _ => ⟨rfl, rfl, rfl⟩⟩
    · rw [if_neg h4]
      exact h

/-- C3 (amended): every record returned by `distributeDeficit` satisfies the
full day-record invariant when every input record does; every record returned
by `parseKekaText` satisfies the non-negativity and Full-leave clauses when
every input record does, but (forced by the counterexample) the parser is not
claimed to preserve the punches/gross-hours consistency clause, which it
breaks when it finds a duration for a day without finding an arrival status
and the day already holds punches. -/
theorem invariant_preservation_amended :
    (∀ (days : List DayLog) (settings : UserSettings),
        (∀ d ∈ days, dayInvariant d) →
        ∀ d ∈ distributeDeficit days settings, dayInvariant d)
    ∧ (∀ (lines : List ScanLine) (days : List DayLog) (settings : UserSettings),
        (∀ d ∈ days, dayWeakInvariant d) →
        ∀ d ∈ parseKekaText lines days settings, dayWeakInvariant d) := by
  constructor
  · intro days settings hinv d hd
    unfold distributeDeficit at hd
    by_cases hz : (days.filter (fun d => !isLocked d)).length = 0
    · rw [if_pos hz] at hd
      exact hinv d hd
    · rw [if_neg hz] at hd
      rw [List.mem_map] at hd
      obtain ⟨day, hday, rfl⟩ := hd
      exact distributeDay_invariant _ _ _ _ (hinv day hday)
  · intro lines days settings hinv d hd
    unfold parseKekaText at hd
    rw [List.mem_map] at hd
    obtain ⟨day, hday, rfl⟩ := hd
    exact applyData_weakInvariant _ _ _ (hinv day hday)

/-- Witness for the amended C3: the distributor output of a one-day week
satisfies the full invariant, and the parser output of a tagged leave day
satisfies the weak invariant. -/
theorem invariant_preservation_amended_witness :
    dayInvariant
        ((distributeDeficit [sampleFutureDay] sampleSettings).getD 0 sampleFutureDay)
    ∧ dayWeakInvariant
        ((parseKekaText [.date 1 19 true] [sampleFutureDay] sampleSettings).getD 0
          sampleFutureDay) :=
  ⟨invariant_preservation_amended.1 [sampleFutureDay] sampleSettings (by decide) _
      (getD_zero_mem _ _ (by rw [distributeDeficit_length]; norm_num)),
   invariant_preservation_amended.2 [.date 1 19 true] [sampleFutureDay]
      sampleSettings (by decide) _
      (getD_zero_mem _ _ (by rw [parseKekaText_length]; norm_num))⟩

/-! Lemmas for the parser claims. -/

/-- Positional form of `parseKekaText`: the output at index `i` is
`applyData` of the input day at `i`. -/
theorem parseKekaText_get (lines : List ScanLine) (days : List DayLog)
    (settings : UserSettings) (i : ℕ) (hi : i < days.length)
    (hi2 : i < (parseKekaText lines days settings).length) :
    (parseKekaText lines days settings).get ⟨i, hi2⟩ =
      applyData settings (scanLines (days.map projDay) lines)
        (days.get ⟨i, hi⟩) := by
  have hdd : parseKekaText lines days settings =
      days.map (applyData settings (scanLines (days.map projDay) lines)) := rfl
  revert hi2
  rw [hdd]
  intro hi2
  simp only [List.get_eq_getElem, List.getElem_map]

/-- C6: every day for which the scan accumulated a positive maximum duration
("Nh Mm" token) is returned by the parser with leaveType None, even when a
leave or holiday keyword was also matched for that same day. -/
theorem parse_hours_override_leave (lines : List ScanLine) (days : List DayLog)
    (settings : UserSettings) (i : ℕ) (hi : i < days.length)
    (hi2 : i < (parseKekaText lines days settings).length)
    (hpos : 0 < (scanLines (days.map projDay) lines
        (days.get ⟨i, hi⟩).id).maxMinutes) :
    ((parseKekaText lines days settings).get ⟨i, hi2⟩).leaveType =
      LeaveType.NONE := by
  rw [parseKekaText_get lines days settings i hi hi2]
  simp only [applyData]
  rw [if_pos hpos]
  by_cases h2 : 0 < startMinsOf settings
      (scanLines (days.map projDay) lines (days.get ⟨i, hi⟩).id)
  · rw [if_pos h2]
    by_cases h3 : (days.get ⟨i, hi⟩).isToday
    · rw [if_pos h3]
    · rw [if_neg h3]
  · rw [if_neg h2]

/-- Text carrying both hours and a leave keyword for the same day. -/
def tagAndHoursLines : List ScanLine :=
  [.date 1 19 true, .content [(7, 28)] none false true]

/-- Witness for C6: a day with 7h 28m of hours and a leave tag comes back
with leaveType None. -/
theorem parse_hours_override_leave_witness :
    0 < (scanLines ([sampleFutureDay].map projDay) tagAndHoursLines
          (([sampleFutureDay].get ⟨0, by norm_num⟩).id)).maxMinutes
    ∧ ((parseKekaText tagAndHoursLines [sampleFutureDay] sampleSettings).get
          ⟨0, by rw [parseKekaText_length]; norm_num⟩).leaveType =
        LeaveType.NONE :=
  ⟨by decide,
   parse_hours_override_leave tagAndHoursLines [sampleFutureDay] sampleSettings
     0 (by norm_num) (by rw [parseKekaText_length]; norm_num) (by decide)⟩

/-- C7: a day with a positive accumulated duration and a computed punch-in
(arrival Late or OnTime with a positive start minute) is returned with empty
punch-out when `isToday`, while its punch-in and gross hours are still set
from the parsed data; with `isToday` false the punch-out is punch-in plus
the duration. -/
theorem parse_today_keeps_punchOut_empty (lines : List ScanLine)
    (days : List DayLog) (settings : UserSettings) (i : ℕ)
    (hi : i < days.length) (hi2 : i < (parseKekaText lines days settings).length)
    (hpos : 0 < (scanLines (days.map projDay) lines
        (days.get ⟨i, hi⟩).id).maxMinutes)
    (harr : (scanLines (days.map projDay) lines
          (days.get ⟨i, hi⟩).id).arrivalStatus = ArrivalStatus.LATE ∨
        (scanLines (days.map projDay) lines
          (days.get ⟨i, hi⟩).id).arrivalStatus = ArrivalStatus.ON_TIME)
    (hstart : 0 < startMinsOf settings
        (scanLines (days.map projDay) lines (days.get ⟨i, hi⟩).id)) :
    ((days.get ⟨i, hi⟩).isToday = true →
        ((parseKekaText lines days settings).get ⟨i, hi2⟩).punchIn =
          minutesToTime ((startMinsOf settings (scanLines (days.map projDay)
            lines (days.get ⟨i, hi⟩).id) : ℚ))
        ∧ ((parseKekaText lines days settings).get ⟨i, hi2⟩).punchOut =
          TimeStr.empty
        ∧ ((parseKekaText lines days settings).get ⟨i, hi2⟩).grossHours =
          toFixed4 (((scanLines (days.map projDay) lines
            (days.get ⟨i, hi⟩).id).maxMinutes : ℚ) / 60))
    ∧ ((days.get ⟨i, hi⟩).isToday = false →
        ((parseKekaText lines days settings).get ⟨i, hi2⟩).punchIn =
          minutesToTime ((startMinsOf settings (scanLines (days.map projDay)
            lines (days.get ⟨i, hi⟩).id) : ℚ))
        ∧ ((parseKekaText lines days settings).get ⟨i, hi2⟩).punchOut =
          addMinutesToTime
            (((parseKekaText lines days settings).get ⟨i, hi2⟩).punchIn)
            (((scanLines (days.map projDay) lines
              (days.get ⟨i, hi⟩).id).maxMinutes : ℚ))
        ∧ ((parseKekaText lines days settings).get ⟨i, hi2⟩).grossHours =
          toFixed4 (((scanLines (days.map projDay) lines
            (days.get ⟨i, hi⟩).id).maxMinutes : ℚ) / 60)) := by
  rw [parseKekaText_get lines days settings i hi hi2]
  simp only [applyData]
  rw [if_pos hpos, if_pos hstart]
  constructor
  · intro htoday
    rw [if_pos htoday]
    exact ⟨rfl, rfl, rfl⟩
  · intro htoday
    rw [if_neg (by rw [htoday]; exact Bool.false_ne_true)]
    refine ⟨rfl, ?_, rfl⟩
    show minutesToTime (((startMinsOf settings (scanLines (days.map projDay)
        lines (days.get ⟨i, hi⟩).id) + (scanLines (days.map projDay) lines
        (days.get ⟨i, hi⟩).id).maxMinutes : ℕ)) : ℚ) =
      addMinutesToTime (minutesToTime ((startMinsOf settings
        (scanLines (days.map projDay) lines (days.get ⟨i, hi⟩).id) : ℚ)))
        (((scanLines (days.map projDay) lines
          (days.get ⟨i, hi⟩).id).maxMinutes : ℚ))
    exact minutesToTime_add_natCast _ _ hpos

/-- A day flagged as today. -/
def sampleTodayDay : DayLog :=
  { id := "mon", label := "Monday", dateStr := ⟨1, 19⟩, isToday := true,
    punchIn := .empty, punchOut := .empty, grossHours := 0, deficit := 0,
    note := "", status := .PRESENT, leaveType := .NONE }

/-- Text with hours and a late arrival for that day. -/
def todayLines : List ScanLine :=
  [.date 1 19 false, .content [(7, 28)] (some (0, 50)) false false]

/-- Witness for C7: on a today-flagged day with 7h 28m and a 50-minute late
arrival, the parser sets punch-in 11:20 but leaves punch-out empty. -/
theorem parse_today_keeps_punchOut_empty_witness :
    ((parseKekaText todayLines [sampleTodayDay] sampleSettings).get
        ⟨0, by rw [parseKekaText_length]; norm_num⟩).punchOut = TimeStr.empty
    ∧ ((parseKekaText todayLines [sampleTodayDay] sampleSettings).get
        ⟨0, by rw [parseKekaText_length]; norm_num⟩).punchIn =
      minutesToTime (((680 : ℕ)) : ℚ) :=
  have h := (parse_today_keeps_punchOut_empty todayLines [sampleTodayDay]
    sampleSettings 0 (by norm_num) (by rw [parseKekaText_length]; norm_num)
    (by decide) (by decide) (by decide)).1 (by decide)
  ⟨h.2.1, h.1⟩

/-- The scanner-relevant projection of a day is untouched by `applyData`, as
are its `isToday` flag and status. -/
theorem applyData_preserves (settings : UserSettings) (data : String → DayAcc)
    (day : DayLog) :
    (applyData settings data day).id = day.id
    ∧ (applyData settings data day).dateStr = day.dateStr
    ∧ (applyData settings data day).isToday = day.isToday := by
  simp only [applyData]
  by_cases h1 : 0 < (data day.id).maxMinutes
  · rw [if_pos h1]
    by_cases h2 : 0 < startMinsOf settings (data day.id)
    · rw [if_pos h2]
      by_cases h3 : day.isToday
      · rw [if_pos h3]
        exact ⟨rfl, rfl, rfl⟩
      · rw [if_neg h3]
        exact ⟨rfl, rfl, rfl⟩
    · rw [if_neg h2]
      exact ⟨rfl, rfl, rfl⟩
  · rw [if_neg h1]
    by_cases h4 : (data day.id).leaveTagFound
    · rw [if_pos h4]
      exact ⟨rfl, rfl, rfl⟩
    · rw [if_neg h4]
      exact ⟨rfl, rfl, rfl⟩

/-- Resolving a day twice against the same accumulator map is the same as
resolving it once. -/
theorem applyData_idem (settings : UserSettings) (data : String → DayAcc)
    (day : DayLog) :
    applyData settings data (applyData settings data day) =
      applyData settings data day := by
  by_cases h1 : 0 < (data day.id).maxMinutes
  · by_cases h2 : 0 < startMinsOf settings (data day.id)
    · by_cases h3 : day.isToday
      · have e1 : applyData settings data day =
            { day with punchIn := minutesToTime ((startMinsOf settings (data day.id) : ℚ)),
                       punchOut := TimeStr.empty,
                       grossHours := toFixed4 (((data day.id).maxMinutes : ℚ) / 60),
                       leaveType := LeaveType.NONE } := by
          simp only [applyData]
          rw [if_pos h1, if_pos h2, if_pos h3]
        rw [e1]
        simp only [applyData]
        rw [if_pos h1, if_pos h2, if_pos h3]
      · have e1 : applyData settings data day =
            { day with punchIn := minutesToTime ((startMinsOf settings (data day.id) : ℚ)),
                       punchOut := minutesToTime (((startMinsOf settings (data day.id) +
                         (data day.id).maxMinutes : ℕ)) : ℚ),
                       grossHours := toFixed4 (((data day.id).maxMinutes : ℚ) / 60),
                       leaveType := LeaveType.NONE } := by
          simp only [applyData]
          rw [if_pos h1, if_pos h2, if_neg h3]
        rw [e1]
        simp only [applyData]
        rw [if_pos h1, if_pos h2, if_neg h3]
    · have e1 : applyData settings data day =
          { day with grossHours := toFixed4 (((data day.id).maxMinutes : ℚ) / 60),
                     leaveType := LeaveType.NONE } := by
        simp only [applyData]
        rw [if_pos h1, if_neg h2]
      rw [e1]
      simp only [applyData]
      rw [if_pos h1, if_neg h2]
  · by_cases h4 : (data day.id).leaveTagFound
    · have e1 : applyData settings data day =
          { day with punchIn := TimeStr.empty, punchOut := TimeStr.empty,
                     grossHours := 0, leaveType := LeaveType.FULL } := by
        simp only [applyData]
        rw [if_neg h1, if_pos h4]
      rw [e1]
      simp only [applyData]
      rw [if_neg h1, if_pos h4]
    · have e1 : applyData settings data day = day := by
        simp only [applyData]
        rw [if_neg h1, if_neg h4]
      rw [e1, e1]

/-- C8: the parser is idempotent: running `parseKekaText` a second time with
the same text and settings on its own output yields that output unchanged. -/
theorem parseKekaText_idem (lines : List ScanLine) (days : List DayLog)
    (settings : UserSettings) :
    parseKekaText lines (parseKekaText lines days settings) settings =
      parseKekaText lines days settings := by
  have hproj : (parseKekaText lines days settings).map projDay =
      days.map projDay := by
    show (days.map (applyData settings
        (scanLines (days.map projDay) lines))).map projDay = days.map projDay
    rw [List.map_map]
    have hfun : (projDay ∘ applyData settings
        (scanLines (days.map projDay) lines)) = projDay :=
      funext fun d => by
        have h := applyData_preserves settings
          (scanLines (days.map projDay) lines) d
        show projDay (applyData settings
          (scanLines (days.map projDay) lines) d) = projDay d
        have hcalc : projDay (applyData settings
            (scanLines (days.map projDay) lines) d) =
            ((applyData settings (scanLines (days.map projDay) lines) d).id,
             (applyData settings (scanLines (days.map projDay) lines) d).dateStr) :=
          rfl
        rw [hcalc, h.1, h.2.1]
        rfl
    rw [hfun]
  have key : parseKekaText lines (parseKekaText lines days settings) settings =
      (parseKekaText lines days settings).map
        (applyData settings (scanLines (days.map projDay) lines)) := by
    show (parseKekaText lines days settings).map
        (applyData settings
          (scanLines ((parseKekaText lines days settings).map projDay) lines)) = _
    rw [hproj]
  rw [key]
  show (days.map (applyData settings (scanLines (days.map projDay) lines))).map
      (applyData settings (scanLines (days.map projDay) lines)) =
    days.map (applyData settings (scanLines (days.map projDay) lines))
  rw [List.map_map]
  have hfun2 : ((applyData settings (scanLines (days.map projDay) lines)) ∘
      (applyData settings (scanLines (days.map projDay) lines))) =
      applyData settings (scanLines (days.map projDay) lines) :=
    funext fun d => applyData_idem settings (scanLines (days.map projDay) lines) d
  rw [hfun2]

/-- Witness for C10 at punch-in "18:00", target 570 minutes (cap exceeded,
suggestion fallback taken). -/
theorem calculateOutTimeFromMinutes_time_le_cap_witness :
    (0 : ℚ) ≤ 570
    ∧ timeToMinutes (TimeStr.hm 18 0) ≤ maxLimitMins sampleSettings
    ∧ timeToMinutes
        (calculateOutTimeFromMinutes (.hm 18 0) 570 sampleSettings).time ≤
      maxLimitMins sampleSettings :=
  ⟨by norm_num, by decide,
   calculateOutTimeFromMinutes_time_le_cap (.hm 18 0) 570 sampleSettings
     (by norm_num) (by decide)⟩

end WorkSync
